import Mathlib

/-!
Verification of the ascii-art converter core (`src/converter.py`,
`src/constants.py`) against its natural-language specification.

The Python code is shallowly embedded: machine integers become `ℕ`/`ℤ`,
Python float expressions that are immediately truncated with `int(...)`
are modelled as exact rational arithmetic followed by truncation toward
zero (`pyInt`), and fallible constructors return `Except`.
-/

/-- Python `int(...)` applied to a real-valued expression truncates toward
zero.  On the rationals this is the floor for nonnegative arguments and
the ceiling for negative ones. -/
def pyInt (q : ℚ) : ℤ := if 0 ≤ q then ⌊q⌋ else ⌈q⌉

/-- Embedding of `constants.CHAR_SETS`: character sets ordered from dark (dense) to
light (sparse), keyed by name. -/
def CHAR_SETS : List (String × String) :=
  [("simple", "@%#*+=-:. "),
   ("standard",
    "$@B%8&WM#*oahkbdpqwmZO0QLCJUYXzcvunxrjft/\\|()1\x7b\x7d[]?-_+~<>i!lI;:,\"^`\x27. "),
   ("detailed", "@%#*+=-:. "),
   ("blocks", "█▓▒░ "),
   ("blocks-simple", "█▓▒░*+=-:. ")]

/-- Embedding of `constants.DEFAULT_WIDTH`. -/
def DEFAULT_WIDTH : ℤ := 100

/-- Embedding of `constants.DEFAULT_CHAR_SET`. -/
def DEFAULT_CHAR_SET : String := "simple"

/-- Embedding of `constants.ASPECT_RATIO_CORRECTION` (the Python float `0.5`, exact). -/
def ASPECT_RATIO_CORRECTION : ℚ := 1 / 2

/-- The state an `AsciiConverter` instance carries after `__init__`
(`converter.py` lines 16-36). -/
structure AsciiConverter where
  width : ℤ
  use_color : Bool
  char_set_name : String
  characters : List Char
  aspect_ratio_correction : ℚ
deriving DecidableEq

/-- Embedding of `AsciiConverter.__init__` (`converter.py` lines 16-36): stores `width`
and `use_color` unconditionally, raises `ValueError` only for an unknown
character-set name, then stores the glyphs and the fixed aspect-ratio
correction constant. -/
def AsciiConverter.init (width : ℤ) (char_set : String) (use_color : Bool) :
    Except String AsciiConverter :=
  match CHAR_SETS.lookup char_set with
  | none => .error ("Unknown character set " ++ char_set)
  | some chars =>
      .ok { width := width
            use_color := use_color
            char_set_name := char_set
            characters := chars.toList
            aspect_ratio_correction := ASPECT_RATIO_CORRECTION }

/-! ## `_resize_image` (`converter.py` lines 110-150)

The dimension computation of `_resize_image`, factored into the
quantities the source computes in order.  `ow`, `oh` are the source
image's pixel width and height. -/

/-- Line 128: `uncorrected_height = int(self.width * aspect_ratio)` with
`aspect_ratio = original_height / original_width` (lines 125-128). -/
def uncorrectedHeight (width : ℤ) (ow oh : ℕ) : ℤ :=
  pyInt ((width : ℚ) * ((oh : ℚ) / (ow : ℚ)))

/-- Line 132: `new_height = int(self.width * aspect_ratio * self.aspect_ratio_correction)`. -/
def newHeight0 (width : ℤ) (corr : ℚ) (ow oh : ℕ) : ℤ :=
  pyInt ((width : ℚ) * ((oh : ℚ) / (ow : ℚ)) * corr)

/-- Line 136: `min_height = max(1, int(uncorrected_height * 0.4))`. -/
def minHeightOf (u : ℤ) : ℤ := max 1 (pyInt ((u : ℚ) * (2 / 5)))

/-- Lines 137-138: `if new_height < min_height: new_height = min_height`. -/
def clampMinHeight (h0 mh : ℤ) : ℤ := if h0 < mh then mh else h0

/-- Line 142: `compression_ratio = new_height / uncorrected_height if
uncorrected_height > 0 else 1.0`. -/
def compressionRatio (h1 u : ℤ) : ℚ :=
  if u > 0 then (h1 : ℚ) / (u : ℚ) else 1

/-- Lines 143-145: `if compression_ratio < 0.3: new_height =
int(uncorrected_height * 0.5)`. -/
def clampCompression (h1 u : ℤ) : ℤ :=
  if compressionRatio h1 u < 3 / 10 then pyInt ((u : ℚ) * (1 / 2)) else h1

/-- The output dimensions `(self.width, new_height)` that `_resize_image`
passes to `image.resize` (lines 121-148). -/
def resizeDims (width : ℤ) (corr : ℚ) (ow oh : ℕ) : ℤ × ℤ :=
  let u := uncorrectedHeight width ow oh
  let h1 := clampMinHeight (newHeight0 width corr ow oh) (minHeightOf u)
  (width, clampCompression h1 u)

/-! ## `_pixels_to_ascii` (`converter.py` lines 261-332) -/

/-- Python `min(pixels)` on a nonempty list (line 289); the empty case is
never reached by the pipeline (it would raise in Python). -/
def listMinD : List ℕ → ℕ
  | [] => 0
  | x :: xs => xs.foldl min x

/-- Python `max(pixels)` on a nonempty list (line 290). -/
def listMaxD : List ℕ → ℕ
  | [] => 0
  | x :: xs => xs.foldl max x

/-- Lines 291-295: `brightness_range = max - min`, replaced by 1 when zero
to avoid division by zero. -/
def brightnessRange (minB maxB : ℕ) : ℕ :=
  if maxB - minB = 0 then 1 else maxB - minB

/-- Lines 308-314: `normalized = (brightness - min_brightness) /
brightness_range`; `char_index = int(normalized * (num_chars - 1))`.
The value is nonnegative, so Python `int` is the floor. -/
def charIndex (numChars minB range v : ℕ) : ℕ :=
  ⌊(((v - minB : ℕ) : ℚ) / (range : ℚ)) * ((numChars - 1 : ℕ) : ℚ)⌋₊

/-- Line 317: `char = self.characters[char_index]`.  The index is always
in range (proved below), so the `getD` default is never used. -/
def glyphFor (characters : List Char) (minB range v : ℕ) : Char :=
  characters.getD (charIndex characters.length minB range v) ' '

/-- Embedding of `_rgb_to_ansi` (`converter.py` lines 219-237): `r6 = int(r / 255 * 5)`
and likewise for g, b; `color_code = 16 + 36 * r6 + 6 * g6 + b6`. -/
def rgbToAnsiCode (r g b : ℕ) : ℕ :=
  let r6 := ⌊(r : ℚ) / 255 * 5⌋₊
  let g6 := ⌊(g : ℚ) / 255 * 5⌋₊
  let b6 := ⌊(b : ℚ) / 255 * 5⌋₊
  16 + 36 * r6 + 6 * g6 + b6

/-- The escape-sequence string returned by `_rgb_to_ansi` (line 237). -/
def rgbToAnsiSeq (r g b : ℕ) : String :=
  "\x1b[38;5;" ++ toString (rgbToAnsiCode r g b) ++ "m"

/-- The ANSI reset code (line 323). -/
def RESET_CODE : String := "\x1b[0m"

/-- One cell of the output (lines 303-326): look up the pixel at
`pixel_index = y * width + x`, pick its glyph, and wrap it in ANSI codes
only when `color_data` is present and long enough (line 320:
`if color_data and pixel_index < len(color_data)`). -/
def cellString (characters : List Char) (minB range : ℕ)
    (colorData : Option (List (ℕ × ℕ × ℕ))) (pixels : List ℕ)
    (width y x : ℕ) : String :=
  let pixel_index := y * width + x
  let ch := glyphFor characters minB range (pixels.getD pixel_index 0)
  match colorData with
  | none => String.singleton ch
  | some cd =>
      if pixel_index < cd.length then
        let c := cd.getD pixel_index (0, 0, 0)
        rgbToAnsiSeq c.1 c.2.1 c.2.2 ++ String.singleton ch ++ RESET_CODE
      else String.singleton ch

/-- Embedding of `_pixels_to_ascii` (lines 274-332): min/max normalization over the
flat pixel list, then the row-by-row string build joined with newlines. -/
def pixelsToAscii (characters : List Char) (width height : ℕ)
    (pixels : List ℕ) (colorData : Option (List (ℕ × ℕ × ℕ))) : String :=
  let minB := listMinD pixels
  let maxB := listMaxD pixels
  let range := brightnessRange minB maxB
  String.intercalate "\n"
    ((List.range height).map fun y =>
      String.join ((List.range width).map fun x =>
        cellString characters minB range colorData pixels width y x))

/-- The glyph grid underlying `_pixels_to_ascii` before any ANSI
wrapping: cell (y, x) holds the glyph of pixel `y * width + x`. -/
def asciiGrid (characters : List Char) (width height : ℕ)
    (pixels : List ℕ) : List (List Char) :=
  let minB := listMinD pixels
  let maxB := listMaxD pixels
  let range := brightnessRange minB maxB
  (List.range height).map fun y =>
    (List.range width).map fun x =>
      glyphFor characters minB range (pixels.getD (y * width + x) 0)

/-! ## `render_to_image` color fallback (`converter.py` lines 390-402) -/

/-- The fill argument passed to `draw.text`: either an RGB tuple or the
named color string `'black'`. -/
inductive Fill where
  | rgb (r g b : ℕ)
  | named (s : String)
deriving DecidableEq

/-- Lines 393-397: the per-glyph fill color chosen while rendering with
`color_data`: the tuple at the glyph's linear index when that index is in
range, else the `'black'` fallback. -/
def renderGlyphFill (color_data : List (ℕ × ℕ × ℕ)) (pixel_index : ℕ) : Fill :=
  if pixel_index < color_data.length then
    let c := color_data.getD pixel_index (0, 0, 0)
    .rgb c.1 c.2.1 c.2.2
  else .named "black"

/-! ## End-to-end pipeline for `convert_image` with `use_color = False`
(`converter.py` lines 39-88) -/

/-- A decoded raster image: pixel dimensions and a row-major list of RGB
triples (the PIL `Image` data the core reads). -/
structure PImage where
  width : ℕ
  height : ℕ
  pixels : List (ℕ × ℕ × ℕ)
deriving DecidableEq

/-- Nearest-neighbor resampling to the target dimensions (line 148,
`Image.Resampling.NEAREST`): each output pixel samples the source at the
center-mapped coordinate.  The resampling filter is outside the
dimension contract; only uniform images are evaluated through it here. -/
def resizeNearest (img : PImage) (w h : ℕ) : PImage :=
  { width := w
    height := h
    pixels :=
      (List.range h).flatMap fun y =>
        (List.range w).map fun x =>
          let sx := (2 * x + 1) * img.width / (2 * w)
          let sy := (2 * y + 1) * img.height / (2 * h)
          img.pixels.getD (sy * img.width + sx) (0, 0, 0) }

/-- PIL RGB→L luminance (`image.convert('L')`, line 251):
`L = (R * 19595 + G * 38470 + B * 7471 + 2^15) >> 16`. -/
def toLuminance (p : ℕ × ℕ × ℕ) : ℕ :=
  (p.1 * 19595 + p.2.1 * 38470 + p.2.2 * 7471 + 32768) / 65536

/-- The 256-bin histogram of an L-mode pixel list (`image.histogram()`). -/
def histogram256 (pixels : List ℕ) : List ℕ :=
  (List.range 256).map fun i => (pixels.filter fun p => p = i).length

/-- The lookup table built by `PIL.ImageOps.equalize` for one channel:
drop empty bins; with at most one occupied bin (or a zero step) the LUT
is the identity, otherwise it accumulates the histogram with offset
`step / 2` and divides by `step = (total - lastBin) / 255`. -/
def equalizeLut (h : List ℕ) : List ℕ :=
  let histo := h.filter fun x => x ≠ 0
  if histo.length ≤ 1 then List.range 256
  else
    let step := (histo.sum - histo.getLastD 0) / 255
    if step = 0 then List.range 256
    else
      ((List.range 256).foldl
        (fun (acc : List ℕ × ℕ) i => (acc.1 ++ [acc.2 / step], acc.2 + h.getD i 0))
        ([], step / 2)).1

/-- PIL `ImageOps.equalize` applied to an L-mode pixel list (line 256). -/
def equalizeL (pixels : List ℕ) : List ℕ :=
  let lut := equalizeLut (histogram256 pixels)
  pixels.map fun p => lut.getD p 0

/-- Embedding of `_convert_to_grayscale` (lines 240-258): convert to L, then equalize. -/
def convertToGrayscale (img : PImage) : List ℕ :=
  equalizeL (img.pixels.map toLuminance)

/-- Embedding of `convert_image` (lines 39-88) on an already-decoded image, in the
`use_color = False` branch: resize, convert to grayscale with histogram
equalization, then map pixels to ASCII with no color data.  (The
`use_color = True` branch additionally runs the PIL brightness/sharpness
enhancers and the saturation boost; it is not needed by the claims and
is not embedded.) -/
def convertImageBW (conv : AsciiConverter) (img : PImage) : String :=
  let dims := resizeDims conv.width conv.aspect_ratio_correction img.width img.height
  let resized := resizeNearest img dims.1.toNat dims.2.toNat
  let gray := convertToGrayscale resized
  pixelsToAscii conv.characters resized.width resized.height gray none

/-! ## Statements modelled from the spec's words, for comparison with the
code (refinement checks) -/

/-- Modelled from claim C2's words: the same two-clamp resize pipeline
but with `round` (round half away from midpoint per Mathlib `round`,
i.e. floor of q + 1/2; every rounding site exercised below is tie-free,
where this agrees with Python's banker's rounding) in place of the
code's `int` truncation, and the claimed `max 1` on the output height. -/
def resizeDimsClaimed (width : ℤ) (corr : ℚ) (ow oh : ℕ) : ℤ × ℤ :=
  let t : ℤ := round ((width : ℚ) * oh / ow)
  let h0 : ℤ := round ((width : ℚ) * oh / ow * corr)
  let mh : ℤ := max 1 (round ((t : ℚ) * 2 / 5))
  let h1 : ℤ := if h0 < mh then mh else h0
  let ratio : ℚ := if t = 0 then 1 else (h1 : ℚ) / (t : ℚ)
  let h2 : ℤ := if ratio < 3 / 10 then round ((t : ℚ) / 2) else h1
  (width, max 1 h2)

/-- The amended form of claim C2: the resize pipeline with floor
(truncation) at every rounding site, the minimum-height clamp expressed
as a `max`, and the compression test cleared of its division (for
`t ≤ 0` both formulations decline to override). -/
def resizeDimsFloored (width : ℤ) (corr : ℚ) (ow oh : ℕ) : ℤ × ℤ :=
  let t : ℤ := ⌊(width : ℚ) * oh / ow⌋
  let h0 : ℤ := ⌊(width : ℚ) * oh / ow * corr⌋
  let h1 : ℤ := max h0 (max 1 ⌊(t : ℚ) * 2 / 5⌋)
  let h2 : ℤ := if (h1 : ℚ) * 10 < (t : ℚ) * 3 then ⌊(t : ℚ) / 2⌋ else h1
  (width, max 1 h2)

/-! ## Helper lemmas -/

theorem pyInt_eq_floor {q : ℚ} (h : 0 ≤ q) : pyInt q = ⌊q⌋ := if_pos h

theorem pyInt_nonneg {q : ℚ} (h : 0 ≤ q) : 0 ≤ pyInt q := by
  rw [pyInt_eq_floor h]
  exact Int.floor_nonneg.mpr h

/-- The quantization index as pure natural arithmetic: floor of the exact
rational `((v - minB) / range) * (numChars - 1)` is integer division. -/
theorem charIndex_eq (numChars minB range v : ℕ) :
    charIndex numChars minB range v = (v - minB) * (numChars - 1) / range := by
  unfold charIndex
  rw [div_mul_eq_mul_div, ← Nat.cast_mul, Rat.natFloor_natCast_div_natCast]

/-- The 6-level channel quantization as pure natural arithmetic. -/
theorem ansiLevel_eq (ch : ℕ) : ⌊(ch : ℚ) / 255 * 5⌋₊ = ch * 5 / 255 := by
  rw [div_mul_eq_mul_div,
    show ((ch : ℚ) * 5) = ((ch * 5 : ℕ) : ℚ) by push_cast; ring,
    show ((255 : ℚ)) = ((255 : ℕ) : ℚ) by norm_num,
    Rat.natFloor_natCast_div_natCast]

/-! ## Claim theorems -/

/-- C9: for every RGB triple with each channel in [0, 255], the ANSI
color code computed by `_rgb_to_ansi` equals
`16 + 36 * floor(r/255*5) + 6 * floor(g/255*5) + floor(b/255*5)` and
always lies within [16, 231], so codes 0-15 and 232-255 are never
produced. -/
theorem C9_ansi_cube (r g b : ℕ) (hr : r ≤ 255) (hg : g ≤ 255) (hb : b ≤ 255) :
    rgbToAnsiCode r g b
        = 16 + 36 * ⌊(r : ℚ) / 255 * 5⌋₊ + 6 * ⌊(g : ℚ) / 255 * 5⌋₊ + ⌊(b : ℚ) / 255 * 5⌋₊
      ∧ 16 ≤ rgbToAnsiCode r g b ∧ rgbToAnsiCode r g b ≤ 231 := by
  have e : rgbToAnsiCode r g b
      = 16 + 36 * (r * 5 / 255) + 6 * (g * 5 / 255) + b * 5 / 255 := by
    simp only [rgbToAnsiCode, ansiLevel_eq]
  refine ⟨rfl, ?_, ?_⟩ <;> rw [e] <;> omega

/-- Witness for C9 at the pure-red corner (255, 0, 0). -/
theorem C9_ansi_cube_witness :
    rgbToAnsiCode 255 0 0
        = 16 + 36 * ⌊((255 : ℕ) : ℚ) / 255 * 5⌋₊ + 6 * ⌊((0 : ℕ) : ℚ) / 255 * 5⌋₊
            + ⌊((0 : ℕ) : ℚ) / 255 * 5⌋₊
      ∧ 16 ≤ rgbToAnsiCode 255 0 0 ∧ rgbToAnsiCode 255 0 0 ≤ 231 :=
  C9_ansi_cube 255 0 0 (by decide) (by decide) (by decide)

/-- C7: brightness-to-glyph quantization is monotonically non-decreasing:
a strictly smaller brightness sample never gets a larger palette index. -/
theorem C7_quantization_monotone (palette : List Char) (minB maxB v1 v2 : ℕ)
    (h : v1 < v2) :
    charIndex palette.length minB (brightnessRange minB maxB) v1
      ≤ charIndex palette.length minB (brightnessRange minB maxB) v2 := by
  rw [charIndex_eq, charIndex_eq]
  exact Nat.div_le_div_right (Nat.mul_le_mul_right _ (Nat.sub_le_sub_right h.le _))

/-- Witness for C7 on the simple palette geometry: samples 10 < 200 in a
field with observed min 0 and max 255. -/
theorem C7_quantization_monotone_witness :
    charIndex (['@', ' '] : List Char).length 0 (brightnessRange 0 255) 10
      ≤ charIndex (['@', ' '] : List Char).length 0 (brightnessRange 0 255) 200 :=
  C7_quantization_monotone ['@', ' '] 0 255 10 200 (by decide)

/-- C10: when the per-pixel color list is shorter than the glyph's linear
pixel index, the text path emits the bare glyph with no ANSI annotation,
and the raster path falls back to the named default ink `'black'`. -/
theorem C10_short_color_data (characters : List Char) (minB range : ℕ)
    (cd : List (ℕ × ℕ × ℕ)) (pixels : List ℕ) (width y x : ℕ)
    (h : cd.length ≤ y * width + x) :
    cellString characters minB range (some cd) pixels width y x
        = String.singleton (glyphFor characters minB range (pixels.getD (y * width + x) 0))
      ∧ renderGlyphFill cd (y * width + x) = Fill.named "black" := by
  constructor
  · simp only [cellString]
    rw [if_neg (Nat.not_lt.mpr h)]
  · simp only [renderGlyphFill]
    rw [if_neg (Nat.not_lt.mpr h)]

/-- Witness for C10: a single-entry color list and the glyph at linear
index 1. -/
theorem C10_short_color_data_witness :
    cellString ['@', ' '] 0 1 (some [(9, 9, 9)]) [0, 0] 2 0 1
        = String.singleton (glyphFor ['@', ' '] 0 1 (([0, 0] : List ℕ).getD (0 * 2 + 1) 0))
      ∧ renderGlyphFill [(9, 9, 9)] (0 * 2 + 1) = Fill.named "black" :=
  C10_short_color_data ['@', ' '] 0 1 [(9, 9, 9)] [0, 0] 2 0 1 (by decide)

/-- C1: for a brightness field with observed minimum `minB` and maximum
`maxB` (with `minB < maxB`, so that the claimed formula's denominator is
nonzero) and a palette of length at least 2, the index assigned to a
sample `v` of the field is exactly `floor(((v - min) / (max - min)) *
(n - 1))`, it always lies in `[0, n - 1]`, the darkest sample maps to
index 0, the brightest to index `n - 1`, and the glyph emitted is the
palette entry at that index. -/
theorem C1_quantization_formula (palette : List Char) (hn : 2 ≤ palette.length)
    (minB maxB v : ℕ) (hlo : minB ≤ v) (hhi : v ≤ maxB) (hlt : minB < maxB) :
    charIndex palette.length minB (brightnessRange minB maxB) v
        = ⌊(((v : ℚ) - (minB : ℚ)) / ((maxB : ℚ) - (minB : ℚ)))
            * ((palette.length : ℚ) - 1)⌋₊
      ∧ charIndex palette.length minB (brightnessRange minB maxB) v ≤ palette.length - 1
      ∧ (v = minB → charIndex palette.length minB (brightnessRange minB maxB) v = 0)
      ∧ (v = maxB →
          charIndex palette.length minB (brightnessRange minB maxB) v = palette.length - 1)
      ∧ glyphFor palette minB (brightnessRange minB maxB) v
          = palette.getD (charIndex palette.length minB (brightnessRange minB maxB) v) ' ' := by
  have hrange : brightnessRange minB maxB = maxB - minB := if_neg (by omega)
  refine ⟨?_, ?_, ?_, ?_, rfl⟩
  · unfold charIndex
    rw [hrange, Nat.cast_sub hlo, Nat.cast_sub hlt.le,
      Nat.cast_sub (show 1 ≤ palette.length by omega), Nat.cast_one]
  · rw [charIndex_eq, hrange]
    calc (v - minB) * (palette.length - 1) / (maxB - minB)
        ≤ (maxB - minB) * (palette.length - 1) / (maxB - minB) :=
          Nat.div_le_div_right (Nat.mul_le_mul_right _ (by omega))
      _ = palette.length - 1 := Nat.mul_div_cancel_left _ (by omega)
  · intro hv
    subst hv
    rw [charIndex_eq]
    simp
  · intro hv
    subst hv
    rw [charIndex_eq, hrange, Nat.mul_div_cancel_left _ (by omega)]

/-- Witness for C1: palette of two glyphs, field with min 0 and max 255,
sample 255 (the brightest). -/
theorem C1_quantization_formula_witness :
    charIndex (['@', ' '] : List Char).length 0 (brightnessRange 0 255) 255
        = ⌊((((255 : ℕ) : ℚ) - ((0 : ℕ) : ℚ)) / (((255 : ℕ) : ℚ) - ((0 : ℕ) : ℚ)))
            * (((['@', ' '] : List Char).length : ℚ) - 1)⌋₊
      ∧ charIndex (['@', ' '] : List Char).length 0 (brightnessRange 0 255) 255
          ≤ (['@', ' '] : List Char).length - 1
      ∧ (255 = 0 →
          charIndex (['@', ' '] : List Char).length 0 (brightnessRange 0 255) 255 = 0)
      ∧ (255 = 255 →
          charIndex (['@', ' '] : List Char).length 0 (brightnessRange 0 255) 255
            = (['@', ' '] : List Char).length - 1)
      ∧ glyphFor ['@', ' '] 0 (brightnessRange 0 255) 255
          = (['@', ' '] : List Char).getD
              (charIndex (['@', ' '] : List Char).length 0 (brightnessRange 0 255) 255) ' ' :=
  C1_quantization_formula ['@', ' '] (by decide) 0 255 255 (by decide) (by decide) (by decide)

theorem foldl_min_self (c : ℕ) : ∀ m : ℕ, List.foldl min c (List.replicate m c) = c := by
  intro m
  induction m with
  | zero => rfl
  | succ k ih => simpa [List.replicate_succ] using ih

theorem foldl_max_self (c : ℕ) : ∀ m : ℕ, List.foldl max c (List.replicate m c) = c := by
  intro m
  induction m with
  | zero => rfl
  | succ k ih => simpa [List.replicate_succ] using ih

theorem listMinD_replicate (n c : ℕ) (h : n ≠ 0) :
    listMinD (List.replicate n c) = c := by
  obtain ⟨m, rfl⟩ := Nat.exists_eq_succ_of_ne_zero h
  simpa [List.replicate_succ, listMinD] using foldl_min_self c m

theorem listMaxD_replicate (n c : ℕ) (h : n ≠ 0) :
    listMaxD (List.replicate n c) = c := by
  obtain ⟨m, rfl⟩ := Nat.exists_eq_succ_of_ne_zero h
  simpa [List.replicate_succ, listMaxD] using foldl_max_self c m

/-- On a uniform field the cell lookup yields either the field value `c`
(in range) or the out-of-range default 0; either way the numerator
`value - c` truncates to 0. -/
theorem replicate_getD_sub (n c idx : ℕ) :
    (List.replicate n c).getD idx 0 - c = 0 := by
  rcases lt_or_ge idx n with hidx | hidx
  · rw [List.getD_eq_getElem?_getD, List.getElem?_replicate, if_pos hidx]
    simp
  · rw [List.getD_eq_getElem?_getD, List.getElem?_replicate, if_neg (by omega)]
    simp

/-- On a uniform field every cell's glyph is the palette head. -/
theorem glyphFor_uniform (palette : List Char) (n c idx : ℕ) :
    glyphFor palette c 1 ((List.replicate n c).getD idx 0) = palette.getD 0 ' ' := by
  unfold glyphFor
  rw [charIndex_eq, replicate_getD_sub]
  simp

/-- C8: on a fully uniform brightness field the guarded range is 1 (the
division is total) and every cell of the resulting character grid is the
palette's index-0 glyph, the densest. -/
theorem C8_uniform_field (palette : List Char) (c w h : ℕ) :
    brightnessRange c c = 1
      ∧ asciiGrid palette w h (List.replicate (w * h) c)
          = List.replicate h (List.replicate w (palette.getD 0 ' ')) := by
  refine ⟨by simp [brightnessRange], ?_⟩
  simp only [asciiGrid]
  rcases Nat.eq_zero_or_pos (w * h) with h0 | hpos
  · rcases Nat.mul_eq_zero.mp h0 with hw | hh
    · subst hw
      simp
    · subst hh
      simp
  · rw [listMinD_replicate _ _ (by omega), listMaxD_replicate _ _ (by omega),
      show brightnessRange c c = 1 by simp [brightnessRange]]
    have hrow : ∀ y : ℕ, ((List.range w).map fun x =>
        glyphFor palette c 1 ((List.replicate (w * h) c).getD (y * w + x) 0))
        = List.replicate w (palette.getD 0 ' ') := by
      intro y
      have h1 : ((List.range w).map fun x =>
          glyphFor palette c 1 ((List.replicate (w * h) c).getD (y * w + x) 0))
          = (List.range w).map fun _ => palette.getD 0 ' ' :=
        List.map_congr_left fun x _ => glyphFor_uniform palette (w * h) c (y * w + x)
      rw [h1]
      simp
    have h2 : ((List.range h).map fun y =>
        (List.range w).map fun x =>
          glyphFor palette c 1 ((List.replicate (w * h) c).getD (y * w + x) 0))
        = (List.range h).map fun _ => List.replicate w (palette.getD 0 ' ') :=
      List.map_congr_left fun y _ => hrow y
    rw [h2]
    simp

/-! ## Resize-clamp lemmas -/

theorem aspectTerm_nonneg (w : ℤ) (ow oh : ℕ) (hw : 0 < w) :
    0 ≤ (w : ℚ) * ((oh : ℚ) / (ow : ℚ)) :=
  mul_nonneg (by exact_mod_cast hw.le) (div_nonneg (Nat.cast_nonneg _) (Nat.cast_nonneg _))

theorem uncorrectedHeight_nonneg (w : ℤ) (ow oh : ℕ) (hw : 0 < w) :
    0 ≤ uncorrectedHeight w ow oh :=
  pyInt_nonneg (aspectTerm_nonneg w ow oh hw)

theorem one_le_minHeightOf (u : ℤ) : 1 ≤ minHeightOf u := le_max_left 1 _

theorem one_le_clampMinHeight (h0 mh : ℤ) (hmh : 1 ≤ mh) :
    1 ≤ clampMinHeight h0 mh := by
  unfold clampMinHeight
  split <;> omega

/-- If the compression-ratio branch fires then the uncorrected height is
positive, the clamped height is below 30 percent of it, and (because the
clamped height is at least 1) the uncorrected height is at least 4. -/
theorem clampCompression_of_ratio_lt {h1 u : ℤ} (hh1 : 1 ≤ h1)
    (hr : compressionRatio h1 u < 3 / 10) : 0 < u ∧ 10 * h1 < 3 * u ∧ 4 ≤ u := by
  have hu : 0 < u := by
    by_contra hu
    rw [compressionRatio, if_neg hu] at hr
    norm_num at hr
  rw [compressionRatio, if_pos hu] at hr
  have huQ : (0 : ℚ) < (u : ℚ) := by exact_mod_cast hu
  rw [div_lt_iff₀ huQ] at hr
  have h10 : (10 : ℚ) * h1 < 3 * u := by linarith
  have h10Z : 10 * h1 < 3 * u := by exact_mod_cast h10
  exact ⟨hu, h10Z, by omega⟩

theorem pyInt_half_int (u : ℤ) (hu : 0 ≤ u) : pyInt ((u : ℚ) * (1 / 2)) = u / 2 := by
  have h0 : (0 : ℚ) ≤ (u : ℚ) * (1 / 2) :=
    mul_nonneg (by exact_mod_cast hu) (by norm_num)
  rw [pyInt_eq_floor h0, mul_one_div, show ((2 : ℚ)) = ((2 : ℕ) : ℚ) by norm_num,
    Rat.floor_intCast_div_natCast]
  norm_num

theorem one_le_clampCompression (h1 u : ℤ) (hh1 : 1 ≤ h1) (hu : 0 ≤ u) :
    1 ≤ clampCompression h1 u := by
  unfold clampCompression
  split
  · next hr =>
      obtain ⟨hupos, h10, hu4⟩ := clampCompression_of_ratio_lt hh1 hr
      rw [pyInt_half_int u hu]
      omega
  · exact hh1

theorem compression_floor (h1 u : ℤ) (hh1 : 1 ≤ h1) (hu : 0 ≤ u) :
    3 * u ≤ 10 * clampCompression h1 u := by
  unfold clampCompression
  split
  · next hr =>
      obtain ⟨hupos, h10, hu4⟩ := clampCompression_of_ratio_lt hh1 hr
      rw [pyInt_half_int u hu]
      omega
  · next hr =>
      rw [compressionRatio] at hr
      by_cases hu0 : u > 0
      · rw [if_pos hu0] at hr
        push_neg at hr
        have huQ : (0 : ℚ) < (u : ℚ) := by exact_mod_cast hu0
        rw [le_div_iff₀ huQ] at hr
        have hQ : (3 : ℚ) * u ≤ 10 * h1 := by linarith
        have hz : 3 * u ≤ 10 * h1 := by exact_mod_cast hQ
        omega
      · have hu0' : u = 0 := by omega
        omega

/-- C5: for every source image with positive pixel dimensions, positive
target width and aspect correction in (0, 1], the resize output width is
exactly the target width and the output height is at least 1. -/
theorem C5_resize_bounds (w : ℤ) (ow oh : ℕ) (c : ℚ) (hw : 0 < w)
    (how : 0 < ow) (hoh : 0 < oh) (hc : 0 < c) (hc1 : c ≤ 1) :
    (resizeDims w c ow oh).1 = w ∧ 1 ≤ (resizeDims w c ow oh).2 :=
  ⟨rfl,
    one_le_clampCompression _ _
      (one_le_clampMinHeight _ _ (one_le_minHeightOf _))
      (uncorrectedHeight_nonneg w ow oh hw)⟩

/-- Witness for C5: width 3, a 4x5 source, aspect correction 1. -/
theorem C5_resize_bounds_witness :
    (resizeDims 3 1 4 5).1 = 3 ∧ 1 ≤ (resizeDims 3 1 4 5).2 :=
  C5_resize_bounds 3 4 5 1 (by decide) (by decide) (by decide) one_pos (le_refl 1)

/-- C6: after both clamps the final height is at least 30 percent of the
uncorrected (true) proportional height, stated integrally as
`3 * trueHeight <= 10 * finalHeight`. -/
theorem C6_compression_invariant (w : ℤ) (ow oh : ℕ) (c : ℚ) (hw : 0 < w)
    (how : 0 < ow) (hoh : 0 < oh) (hc : 0 < c) (hc1 : c ≤ 1) :
    3 * uncorrectedHeight w ow oh ≤ 10 * (resizeDims w c ow oh).2 :=
  compression_floor _ _
    (one_le_clampMinHeight _ _ (one_le_minHeightOf _))
    (uncorrectedHeight_nonneg w ow oh hw)

/-- Witness for C6: width 3, a 4x5 source, aspect correction 1. -/
theorem C6_compression_invariant_witness :
    3 * uncorrectedHeight 3 4 5 ≤ 10 * (resizeDims 3 1 4 5).2 :=
  C6_compression_invariant 3 4 5 1 (by decide) (by decide) (by decide) one_pos (le_refl 1)

theorem clampMinHeight_eq_max (h0 mh : ℤ) : clampMinHeight h0 mh = max h0 mh := by
  unfold clampMinHeight
  split <;> omega

theorem minHeightOf_eq (u : ℤ) (hu : 0 ≤ u) :
    max 1 ⌊(u : ℚ) * 2 / 5⌋ = minHeightOf u := by
  unfold minHeightOf
  rw [pyInt_eq_floor (mul_nonneg (by exact_mod_cast hu) (by norm_num)), mul_div_assoc]

theorem clampCompression_eq (h1 u : ℤ) (hh1 : 1 ≤ h1) (hu : 0 ≤ u) :
    clampCompression h1 u = if (h1 : ℚ) * 10 < (u : ℚ) * 3 then ⌊(u : ℚ) / 2⌋ else h1 := by
  have hcond : compressionRatio h1 u < 3 / 10 ↔ (h1 : ℚ) * 10 < (u : ℚ) * 3 := by
    unfold compressionRatio
    by_cases hp : u > 0
    · rw [if_pos hp]
      have huQ : (0 : ℚ) < (u : ℚ) := by exact_mod_cast hp
      rw [div_lt_iff₀ huQ]
      constructor <;> intro h <;> linarith
    · rw [if_neg hp]
      have hu0 : u = 0 := by omega
      subst hu0
      have hQ : (1 : ℚ) ≤ (h1 : ℚ) := by exact_mod_cast hh1
      constructor
      · intro h
        exfalso
        norm_num at h
      · intro h
        exfalso
        norm_num at h
        linarith
  unfold clampCompression
  rw [show pyInt ((u : ℚ) * (1 / 2)) = ⌊(u : ℚ) / 2⌋ by
      rw [pyInt_eq_floor (mul_nonneg (by exact_mod_cast hu) (by norm_num)), mul_one_div]]
  simp only [hcond]

/-- C2 (amended): with Python `int` truncation (floor, for these
nonnegative quantities) in place of the claimed `round`, the resize
dimension computation is exactly the floor-based two-clamp pipeline of
`resizeDimsFloored`. -/
theorem C2_resize_formula (w : ℤ) (ow oh : ℕ) (c : ℚ) (hw : 0 < w)
    (how : 0 < ow) (hoh : 0 < oh) (hc : 0 < c) (hc1 : c ≤ 1) :
    resizeDims w c ow oh = resizeDimsFloored w c ow oh := by
  have hq0 : 0 ≤ (w : ℚ) * ((oh : ℚ) / (ow : ℚ)) := aspectTerm_nonneg w ow oh hw
  have hqe : (w : ℚ) * (oh : ℚ) / (ow : ℚ) = (w : ℚ) * ((oh : ℚ) / (ow : ℚ)) :=
    mul_div_assoc _ _ _
  have hT : ⌊(w : ℚ) * (oh : ℚ) / (ow : ℚ)⌋ = uncorrectedHeight w ow oh := by
    unfold uncorrectedHeight
    rw [pyInt_eq_floor hq0, hqe]
  have hH0 : ⌊(w : ℚ) * (oh : ℚ) / (ow : ℚ) * c⌋ = newHeight0 w c ow oh := by
    unfold newHeight0
    rw [pyInt_eq_floor (mul_nonneg hq0 hc.le), hqe]
  have hu : 0 ≤ uncorrectedHeight w ow oh := uncorrectedHeight_nonneg w ow oh hw
  have hh1 : 1 ≤ clampMinHeight (newHeight0 w c ow oh) (minHeightOf (uncorrectedHeight w ow oh)) :=
    one_le_clampMinHeight _ _ (one_le_minHeightOf _)
  simp only [resizeDims, resizeDimsFloored]
  rw [hT, hH0, minHeightOf_eq _ hu,
    ← clampMinHeight_eq_max (newHeight0 w c ow oh) (minHeightOf (uncorrectedHeight w ow oh)),
    ← clampCompression_eq _ _ hh1 hu,
    max_eq_right (one_le_clampCompression _ _ hh1 hu)]

/-- Witness for C2 (amended) at width 3, a 4x5 source, correction 1. -/
theorem C2_resize_formula_witness :
    resizeDims 3 1 4 5 = resizeDimsFloored 3 1 4 5 :=
  C2_resize_formula 3 4 5 1 (by decide) (by decide) (by decide) one_pos (le_refl 1)

/-- Counterexample to C2 as stated: for a 2x1 source at target width 7
with the code's correction factor 0.5, the code's truncating pipeline
yields height 1 while the claimed round-based pipeline yields height 2
(all roundings involved are tie-free). -/
theorem C2_round_counterexample :
    resizeDims 7 (1 / 2) 2 1 = (7, 1) ∧ resizeDimsClaimed 7 (1 / 2) 2 1 = (7, 2) := by
  constructor
  · norm_num [resizeDims, uncorrectedHeight, newHeight0, minHeightOf, clampMinHeight,
      compressionRatio, clampCompression, pyInt, Prod.ext_iff]
  · norm_num [resizeDimsClaimed, round_eq, Prod.ext_iff]

/-- C3 (amended): the constructor performs no width validation -- a
non-positive target width is accepted (only an unknown character-set
name is rejected), and the resize dimension computation then passes the
non-positive width straight through as the output width; any failure
happens later, inside the external image library's resize call, not as
an immediate invalid-configuration error. -/
theorem C3_no_width_validation (w : ℤ) (hw : w ≤ 0) (ow oh : ℕ) :
    (AsciiConverter.init w DEFAULT_CHAR_SET false).toOption.isSome = true
      ∧ (resizeDims w ASPECT_RATIO_CORRECTION ow oh).1 = w :=
  ⟨rfl, rfl⟩

/-- Witness for C3 (amended) at width -7 and a 3x4 source. -/
theorem C3_no_width_validation_witness :
    (AsciiConverter.init (-7) DEFAULT_CHAR_SET false).toOption.isSome = true
      ∧ (resizeDims (-7) ASPECT_RATIO_CORRECTION 3 4).1 = -7 :=
  C3_no_width_validation (-7) (by decide) 3 4

/-- Counterexample to C3 as stated: constructing a converter with target
width 0 succeeds (no invalid-configuration failure), and the resize
computation proceeds, producing output dimensions (0, 1) rather than
failing up front. -/
theorem C3_zero_width_counterexample :
    (AsciiConverter.init 0 DEFAULT_CHAR_SET false).toOption.isSome = true
      ∧ resizeDims 0 ASPECT_RATIO_CORRECTION 4 4 = (0, 1) := by
  refine ⟨rfl, ?_⟩
  norm_num [resizeDims, ASPECT_RATIO_CORRECTION, uncorrectedHeight, newHeight0, minHeightOf,
    clampMinHeight, compressionRatio, clampCompression, pyInt, Prod.ext_iff]

/-! ## End-to-end scenario 1 (claim C4) -/

/-- The 2x2 pure-white source image of end-to-end scenario 1. -/
def whiteImage : PImage :=
  { width := 2, height := 2, pixels := List.replicate 4 (255, 255, 255) }

/-- The converter state of scenario 1: target width 2, the ad-hoc
two-glyph palette of a dense glyph at index 0 and a space at index 1,
color disabled, the code's fixed aspect correction 0.5.  (This palette
is supplied directly; it is not one of the registered character sets.) -/
def scenarioConverter : AsciiConverter :=
  { width := 2
    use_color := false
    char_set_name := "custom"
    characters := ['@', ' ']
    aspect_ratio_correction := ASPECT_RATIO_CORRECTION }

/-- Full evaluation of scenario 1 on the code's pipeline: the resize
halves the height (2x2 at width 2 gives a 2x1 grid) and the uniform
white field has observed min equal to max, so every sample quantizes to
palette index 0 -- the dense glyph, not the space. -/
theorem whiteScenario_eval : convertImageBW scenarioConverter whiteImage = "@@" := by
  have hdims : resizeDims scenarioConverter.width scenarioConverter.aspect_ratio_correction
      whiteImage.width whiteImage.height = (2, 1) := by
    norm_num [scenarioConverter, whiteImage, ASPECT_RATIO_CORRECTION, resizeDims,
      uncorrectedHeight, newHeight0, minHeightOf, clampMinHeight, compressionRatio,
      clampCompression, pyInt, Prod.ext_iff]
  simp only [convertImageBW, hdims]
  simp only [pixelsToAscii, cellString, glyphFor, charIndex_eq]
  decide

/-- C4 (amended): converting the 2x2 pure-white image with target width
2, the two-glyph palette of a dense glyph and a space, and color
disabled produces exactly one output line consisting of two dense
glyphs. -/
theorem C4_white_scenario : convertImageBW scenarioConverter whiteImage = "@@" :=
  whiteScenario_eval

/-- Counterexample to C4 as stated: the output is not two lines of two
spaces each. -/
theorem C4_white_scenario_counterexample :
    convertImageBW scenarioConverter whiteImage ≠ "  \n  " := by
  rw [whiteScenario_eval]
  decide
